import Mathlib

/-!
# pdal::python::Array (PyArray.hpp)

A shallow embedding of the class `pdal::python::Array`: the dtype description
built by `buildNumpyDescription`, the packing loop of `update`, and the
ownership steps of the constructors, `cleanup` and the destructor.

The point view (PDAL) and the array runtime (NumPy / CPython) are external
collaborators.  A point view is a record of the answers its methods give; the
runtime is a record of the answers of the three NumPy calls the class makes.
Reference-count and heap operations are recorded as events of a trace, in the
order in which the statements of the source execute.
-/

namespace pdal

/-- One `uint8_t` of the packed buffer. -/
abbrev Byte := Fin 256

namespace Dimension

/-- The enum `Dimension::BaseType` of the PDAL headers.  The source tests for
`Unsigned`, `Signed` and `Floating`; `None` stands for any other value. -/
inductive BaseType where
  | None
  | Signed
  | Unsigned
  | Floating
  deriving DecidableEq, Repr

/-- The value `Dimension::Type` of the PDAL headers, as far as the class reads
it: its base category and its byte size. -/
structure Ty where
  base : BaseType
  size : Nat
  deriving DecidableEq, Repr

/-- The identifier `Dimension::Id`. -/
abbrev Id := Nat

end Dimension

/-- The struct `pdal::DimType`: a dimension id with its type. -/
structure DimType where
  m_id : Dimension.Id
  m_type : Dimension.Ty
  deriving DecidableEq, Repr

abbrev DimTypeList := List DimType

abbrev PointId := Nat

/-- The methods of `PointView` that the class calls.  `getPackedPoint types idx`
is the byte sequence the view stores at the target pointer. -/
structure PointView where
  dims : List Dimension.Id
  size : Nat
  pointSize : Nat
  dimType : Dimension.Id → Dimension.Ty
  dimSize : Dimension.Id → Nat
  dimName : Dimension.Id → String
  dimTypes : DimTypeList
  getPackedPoint : DimTypeList → PointId → List Byte

/-- A Python object, named by a number. `PyObject*` is `Option PyObj`, with
`none` for the null pointer. -/
abbrev PyObj := Nat

/-- A Python list of strings; a slot is `none` until `PyList_SetItem` fills it. -/
abbrev PyList := List (Option String)

def PyList_New (n : Nat) : PyList := List.replicate n none

def PyList_SetItem (l : PyList) (i : Nat) (x : String) : PyList := l.set i (some x)

/-- The dictionary returned by `buildNumpyDescription`: the values stored under
the keys "names" and "formats". -/
structure DtypeDict where
  names : PyList
  formats : PyList
  deriving DecidableEq, Repr

/-- The locals of `buildNumpyDescription` that live across loop iterations. -/
structure DescrState where
  oss : String
  sizes : List (Option Nat)
  formats : PyList
  titles : PyList
  deriving DecidableEq, Repr

/-- One iteration of the loop of `buildNumpyDescription` (lines 184-214).  In
the last branch the text is streamed into `oss` and the exception carries
`o.str()`, the content of a stream nothing was written to. -/
def descrStep (view : PointView) (i : Nat) (id : Dimension.Id) (st : DescrState) :
    Except String DescrState :=
  let t := view.dimType id
  let stride := view.dimSize id
  let name := view.dimName id
  let b := t.base
  let body (kind : String) : Except String DescrState :=
    let oss := st.oss ++ kind ++ toString stride
    .ok { oss := "",
          sizes := st.sizes.set i (some stride),
          titles := PyList_SetItem st.titles i name,
          formats := PyList_SetItem st.formats i oss }
  if b = Dimension.BaseType.Unsigned then body "u"
  else if b = Dimension.BaseType.Signed then body "i"
  else if b = Dimension.BaseType.Floating then body "f"
  else .error ""

/-- The loop `for (i = 0; i < dims.size(); ++i)` from index `i` on, over the
ids `dims[i], dims[i+1], ...` still to visit. -/
def descrLoop (view : PointView) : List Dimension.Id → Nat → DescrState → Except String DescrState
  | [], _, st => .ok st
  | id :: rest, i, st =>
    match descrStep view i id st with
    | .error e => .error e
    | .ok st1 => descrLoop view rest (i + 1) st1

/-- `Array::buildNumpyDescription`: the dictionary, or the thrown message. -/
def buildNumpyDescription (view : PointView) : Except String DtypeDict :=
  let dims := view.dims
  let st0 : DescrState :=
    { oss := "",
      sizes := List.replicate dims.length none,
      formats := PyList_New dims.length,
      titles := PyList_New dims.length }
  match descrLoop view dims 0 st0 with
  | .error e => .error e
  | .ok st => .ok { names := st.titles, formats := st.formats }

/-! ## The packing loop -/

/-- The bytes of `buf` after `src` has been stored through a pointer to offset
`off` of the vector.  The vector keeps its length: bytes of `src` that would
land past its end are not part of it. -/
def writeAt (buf : List Byte) (off : Nat) (src : List Byte) : List Byte :=
  buf.take off ++ src.take (buf.length - off) ++ buf.drop (off + src.length)

/-- The copy loop of `update` (lines 131-137): for `idx` from `0` to
`view->size()`, the packed point `idx` is stored at `sp + pointSize * idx`. -/
def packLoop (view : PointView) (types : DimTypeList) (data : List Byte) : List Byte :=
  (List.range view.size).foldl
    (fun buf idx => writeAt buf (view.pointSize * idx) (view.getPackedPoint types idx)) data

/-- The vector made by `new std::vector<uint8_t>(view->pointSize() * view->size(), 0)`
(line 103): that many bytes, each zero. -/
def pdataInit (view : PointView) : List Byte :=
  List.replicate (view.pointSize * view.size) 0

/-! ## Heap and reference-count events -/

/-- A step of the class that touches the heap or a reference count. -/
inductive Event where
  /-- The statement `new std::vector<uint8_t>(n, 0)` creating vector `b`. -/
  | alloc (b : Nat)
  /-- The vector `b` is destroyed (by `reset`, by a move assignment over it, or
  by the destructor of the `unique_ptr` holding it). -/
  | free (b : Nat)
  /-- The call `PyArray_NewFromDescr` returns array `a` whose data pointer is
  the storage of vector `b`; the caller owns one reference to `a`. -/
  | newArray (a : PyObj) (b : Nat)
  | incref (a : PyObj)
  | decref (a : PyObj)
  deriving DecidableEq, Repr

/-- The events so far, oldest first.  A fresh vector or object is named by the
number of events before it. -/
abbrev World := List Event

/-- The answers of the NumPy calls: `PyArray_Check`, whether
`PyArray_DescrConverter` accepts a dictionary (`false` is `NPY_FAIL`), and
whether `PyArray_NewFromDescr` returns an object for a dtype and a row count
(`false` is a null result). -/
structure Runtime where
  PyArray_Check : PyObj → Bool
  PyArray_DescrConverter : DtypeDict → Bool
  PyArray_NewFromDescr : DtypeDict → Nat → Bool

def Py_XINCREF (p : Option PyObj) (w : World) : World :=
  match p with
  | none => w
  | some a => w ++ [Event.incref a]

def Py_XDECREF (p : Option PyObj) (w : World) : World :=
  match p with
  | none => w
  | some a => w ++ [Event.decref a]

/-- The vector behind `std::unique_ptr<std::vector<uint8_t>>`. -/
structure Buffer where
  id : Nat
  bytes : List Byte
  deriving DecidableEq, Repr

/-- Destruction of whatever a `unique_ptr` holds. -/
def release (d : Option Buffer) (w : World) : World :=
  match d with
  | none => w
  | some b => w ++ [Event.free b.id]

/-- The data members of `class Array`. -/
structure Array where
  m_py_array : Option PyObj
  m_data_array : Option Buffer
  m_own_array : Bool
  deriving DecidableEq, Repr

/-- How a call ended: it returned, or it threw `pdal_error` with a message. -/
inductive Outcome where
  | returned
  | thrown (msg : String)
  deriving DecidableEq, Repr

namespace Array

/-- The constructor `Array()`. -/
def default : Array :=
  { m_py_array := none, m_data_array := none, m_own_array := true }

/-- The constructor `Array(PyObject* array)`.  When it throws, no object is
constructed and no destructor runs. -/
def borrow (rt : Runtime) (array : PyObj) (w : World) : Except String Array × World :=
  if !rt.PyArray_Check array then
    (.error "pdal::python::Array constructor object is not a numpy array", w)
  else
    (.ok { m_py_array := some array, m_data_array := none, m_own_array := false },
      Py_XINCREF (some array) w)

/-- The method `cleanup` (lines 151-160).  `m_py_array` keeps its value. -/
def cleanup (self : Array) (w : World) : Array × World :=
  let p := self.m_py_array
  let r : Array × World :=
    if self.m_own_array then
      ({ self with m_data_array := none }, release self.m_data_array w)
    else (self, w)
  (r.1, Py_XDECREF p r.2)

/-- The method `update` (lines 93-141).  When an exception leaves the method
the local `pdata` is destroyed by unwinding.  `buildNumpyDescription` returns a
dictionary or throws, so the null test of line 107 never fires.  The move
assignment to `m_data_array` destroys what the member still held.  The
temporaries `dtype_dict` and `dtype` are not traced. -/
def update (rt : Runtime) (self : Array) (view : PointView) (w : World) :
    Outcome × Array × World :=
  let c := self.cleanup w
  let s1 := c.1
  let w1 := c.2
  let pdata : Buffer :=
    { id := w1.length, bytes := pdataInit view }
  let w2 := w1 ++ [Event.alloc pdata.id]
  match buildNumpyDescription view with
  | .error e => (Outcome.thrown e, s1, w2 ++ [Event.free pdata.id])
  | .ok dtype_dict =>
    if !rt.PyArray_DescrConverter dtype_dict then
      (Outcome.thrown "Unable to build numpy dtype", s1, w2 ++ [Event.free pdata.id])
    else
      let r : Option PyObj × World :=
        if rt.PyArray_NewFromDescr dtype_dict view.size then
          (some w2.length, w2 ++ [Event.newArray w2.length pdata.id])
        else (none, w2)
      let pyArray := r.1
      let w3 := r.2
      let types := view.dimTypes
      let packed : Buffer := { pdata with bytes := packLoop view types pdata.bytes }
      let w4 := release s1.m_data_array w3
      (Outcome.returned, { s1 with m_py_array := pyArray, m_data_array := some packed }, w4)

/-- The accessor `getPythonArray`. -/
def getPythonArray (self : Array) : Option PyObj := self.m_py_array

/-- The destructor `~Array`: the body calls `cleanup`, then the member
`m_data_array` is destroyed. -/
def destroy (self : Array) (w : World) : World :=
  let c := self.cleanup w
  release c.1.m_data_array c.2

end Array

namespace Array

/-- A call of `update` that returns and leaves an array in the handle: no
exception was thrown and `PyArray_NewFromDescr` gave an object. -/
def succeeds (rt : Runtime) (self : Array) (view : PointView) (w : World) : Bool :=
  decide ((self.update rt view w).1 = Outcome.returned) &&
    (self.update rt view w).2.1.m_py_array.isSome

/-- The handle and the trace after `update` has been called on each view of the
list in turn. -/
def updates (rt : Runtime) : List PointView → Array → World → Array × World
  | [], self, w => (self, w)
  | v :: vs, self, w => updates rt vs (self.update rt v w).2.1 (self.update rt v w).2.2

/-- Every call of the sequence `updates` succeeds. -/
def allSucceed (rt : Runtime) : List PointView → Array → World → Bool
  | [], _, _ => true
  | v :: vs, self, w =>
    self.succeeds rt v w && allSucceed rt vs (self.update rt v w).2.1 (self.update rt v w).2.2

end Array

/-! ## Reading a trace -/

/-- The vectors allocated, in order. -/
def allocIds (w : World) : List Nat :=
  w.filterMap (fun e => match e with
    | Event.alloc b => some b
    | _ => none)

/-- The vectors destroyed, in order. -/
def freeIds (w : World) : List Nat :=
  w.filterMap (fun e => match e with
    | Event.free b => some b
    | _ => none)

/-- The arrays obtained from `PyArray_NewFromDescr`, in order. -/
def createdIds (w : World) : List PyObj :=
  w.filterMap (fun e => match e with
    | Event.newArray a _ => some a
    | _ => none)

/-- The objects a reference was added to, in order. -/
def increfIds (w : World) : List PyObj :=
  w.filterMap (fun e => match e with
    | Event.incref a => some a
    | _ => none)

/-- The objects a reference was dropped from, in order. -/
def decrefIds (w : World) : List PyObj :=
  w.filterMap (fun e => match e with
    | Event.decref a => some a
    | _ => none)

/-- The references acquired through the trace and not yet released. -/
def liveRefs (w : World) : Nat :=
  (createdIds w).length + (increfIds w).length - (decrefIds w).length

/-- In the state reached by the trace, some array created over a vector has
seen the vector destroyed while the reference obtained at its creation has not
been dropped. -/
def dangling (w : World) : Bool :=
  w.any (fun e => match e with
    | Event.newArray a b => decide (b ∈ freeIds w) && decide (a ∉ decrefIds w)
    | _ => false)

/-- The state of an owning handle between operations: every vector allocated
has been destroyed except the one held, every array created has been released
except the one held, and names are fresh. -/
structure Good (h : Array) (w : World) (k : Nat) : Prop where
  own : h.m_own_array = true
  increfs : increfIds w = []
  allocs : allocIds w = freeIds w ++ (h.m_data_array.map Buffer.id).toList
  created : createdIds w = decrefIds w ++ h.m_py_array.toList
  allocNodup : (allocIds w).Nodup
  createdNodup : (createdIds w).Nodup
  allocLt : ∀ x : Nat, x ∈ allocIds w → x < w.length
  createdLt : ∀ x : Nat, x ∈ createdIds w → x < w.length
  allocLen : (allocIds w).length = k
  createdLen : (createdIds w).length = k
  held : h.m_py_array.isSome = decide (0 < k)

/-! ## Vocabulary of the specification -/

/-- The kind code of a base type in the words of the specification: `u` for
Unsigned, `i` for Signed, `f` for Floating, none for anything else. -/
def specKindCode : Dimension.BaseType → Option String
  | .Unsigned => some "u"
  | .Signed => some "i"
  | .Floating => some "f"
  | .None => none

/-- The format tag of the specification: kind code followed by the decimal
byte width. -/
def specFormat (view : PointView) (id : Dimension.Id) : Option String :=
  (specKindCode (view.dimType id).base).map (fun k => k ++ toString (view.dimSize id))

/-- The row stride of the specification: the sum of the widths of the
dimensions, in order. -/
def rowStride (view : PointView) : Nat := (view.dims.map view.dimSize).sum

/-- The offset of field `j` inside a record: the sum of the widths of the
dimensions before it. -/
def fieldOffset (view : PointView) (j : Nat) : Nat := ((view.dims.take j).map view.dimSize).sum

/-- The bytes a conversion of `view` produces, as a function of the view and the
runtime alone: the zero vector after the copy loop when the description is
built and converted, nothing otherwise. -/
def snapshotBytes (rt : Runtime) (view : PointView) : Option (List Byte) :=
  match buildNumpyDescription view with
  | .error _ => none
  | .ok d =>
    if rt.PyArray_DescrConverter d then some (packLoop view view.dimTypes (pdataInit view))
    else none

/-! ## Sample inputs -/

/-- A runtime that accepts every object, every dictionary and every dtype. -/
def rtAccept : Runtime :=
  { PyArray_Check := fun _ => true,
    PyArray_DescrConverter := fun _ => true,
    PyArray_NewFromDescr := fun _ _ => true }

/-- The eight bytes of a double, least significant first, for the values used
by the sample view: only the two most significant bytes are non-zero. -/
def doubleBytes (hi lo : Byte) : List Byte := [0, 0, 0, 0, 0, 0, lo, hi]

/-- The bytes of coordinate `id` of point `i` of the sample view: point 0 is
(0.0, 0.0, 0.0), point 1 is (1.0, 2.0, 3.0), point 2 is (4.0, 5.0, 6.0). -/
def xyzField (i : PointId) (id : Dimension.Id) : List Byte :=
  match i, id with
  | 1, 0 => doubleBytes 0x3F 0xF0
  | 1, 1 => doubleBytes 0x40 0x00
  | 1, 2 => doubleBytes 0x40 0x08
  | 2, 0 => doubleBytes 0x40 0x10
  | 2, 1 => doubleBytes 0x40 0x14
  | 2, 2 => doubleBytes 0x40 0x18
  | _, _ => doubleBytes 0x00 0x00

/-- Three points with the dimensions X, Y, Z, each a double. -/
def xyzView : PointView :=
  { dims := [0, 1, 2],
    size := 3,
    pointSize := 24,
    dimType := fun _ => { base := Dimension.BaseType.Floating, size := 8 },
    dimSize := fun _ => 8,
    dimName := fun id => match id with
      | 0 => "X"
      | 1 => "Y"
      | _ => "Z",
    dimTypes := [0, 1, 2].map
      (fun id => { m_id := id, m_type := { base := Dimension.BaseType.Floating, size := 8 } }),
    getPackedPoint := fun types i => (types.map (fun t => xyzField i t.m_id)).flatten }

/-- One point with a double X and a second dimension whose base type is none
of Unsigned, Signed, Floating. -/
def badView : PointView :=
  { dims := [0, 1],
    size := 1,
    pointSize := 8,
    dimType := fun id => match id with
      | 0 => { base := Dimension.BaseType.Floating, size := 8 }
      | _ => { base := Dimension.BaseType.None, size := 0 },
    dimSize := fun id => match id with
      | 0 => 8
      | _ => 0,
    dimName := fun id => match id with
      | 0 => "X"
      | _ => "Unknown",
    dimTypes := [{ m_id := 0, m_type := { base := Dimension.BaseType.Floating, size := 8 } },
      { m_id := 1, m_type := { base := Dimension.BaseType.None, size := 0 } }],
    getPackedPoint := fun types i => (types.map (fun t => (xyzField i t.m_id).take t.m_type.size)).flatten }

/-- An owning handle that holds vector 0 and array 1. -/
def heldHandle : Array :=
  { m_py_array := some 1, m_data_array := some { id := 0, bytes := [] }, m_own_array := true }

/-- The handle the borrowing constructor builds for object 7. -/
def borrowedHandle : Array :=
  { m_py_array := some 7, m_data_array := none, m_own_array := false }


/-! ## Schema description -/

theorem descrStep_ok (view : PointView) (i : Nat) (id : Dimension.Id) (st : DescrState)
    (k : String) (hk : specKindCode (view.dimType id).base = some k) :
    descrStep view i id st = .ok
      { oss := "",
        sizes := st.sizes.set i (some (view.dimSize id)),
        titles := PyList_SetItem st.titles i (view.dimName id),
        formats := PyList_SetItem st.formats i (st.oss ++ k ++ toString (view.dimSize id)) } := by
  unfold descrStep
  cases hb : (view.dimType id).base <;> simp [hb, specKindCode] at hk ⊢ <;> subst hk <;> rfl

theorem descrStep_error (view : PointView) (i : Nat) (id : Dimension.Id) (st : DescrState)
    (hk : specKindCode (view.dimType id).base = none) :
    descrStep view i id st = .error "" := by
  unfold descrStep
  cases hb : (view.dimType id).base <;> simp [hb, specKindCode] at hk ⊢

theorem descrLoop_error_iff (view : PointView) (rest : List Dimension.Id) :
    ∀ (i : Nat) (st : DescrState),
      (∃ e, descrLoop view rest i st = .error e) ↔
        ∃ id ∈ rest, specKindCode (view.dimType id).base = none := by
  induction rest with
  | nil => intro i st; simp [descrLoop]
  | cons id rest ih =>
    intro i st
    cases hk : specKindCode (view.dimType id).base with
    | none =>
      simp [descrLoop, descrStep_error view i id st hk, hk]
    | some k =>
      simp [descrLoop, descrStep_ok view i id st k hk, hk, ih]

theorem set_at_length {α : Type} (pre : List α) (x y : α) (tl : List α) :
    (pre ++ x :: tl).set pre.length y = pre ++ y :: tl := by
  rw [List.set_append_right _ _ (le_refl _)]
  simp

theorem descrLoop_ok (view : PointView) (rest : List Dimension.Id) :
    ∀ (pre : List Dimension.Id) (st : DescrState),
      (∀ id ∈ rest, specKindCode (view.dimType id).base ≠ none) →
      st.oss = "" →
      st.titles = pre.map (fun id => some (view.dimName id)) ++ List.replicate rest.length none →
      st.formats = pre.map (specFormat view) ++ List.replicate rest.length none →
      ∃ st1, descrLoop view rest pre.length st = .ok st1 ∧
        st1.titles = (pre ++ rest).map (fun id => some (view.dimName id)) ∧
        st1.formats = (pre ++ rest).map (specFormat view) := by
  induction rest with
  | nil =>
    intro pre st _ _ ht hf
    exact ⟨st, rfl, by simpa using ht, by simpa using hf⟩
  | cons id rest ih =>
    intro pre st hall hoss ht hf
    obtain ⟨k, hk⟩ := Option.ne_none_iff_exists'.mp (hall id (List.mem_cons_self _ _))
    have hstep := descrStep_ok view pre.length id st k hk
    have ht1 : PyList_SetItem st.titles pre.length (view.dimName id) =
        (pre ++ [id]).map (fun id => some (view.dimName id)) ++ List.replicate rest.length none := by
      have := set_at_length (pre.map (fun id => some (view.dimName id))) none
        (some (view.dimName id)) (List.replicate rest.length none)
      simp only [List.length_map] at this
      simp only [PyList_SetItem, ht, List.length_cons, List.replicate_succ, this]
      simp
    have hf1 : PyList_SetItem st.formats pre.length (st.oss ++ k ++ toString (view.dimSize id)) =
        (pre ++ [id]).map (specFormat view) ++ List.replicate rest.length none := by
      have := set_at_length (pre.map (specFormat view)) none
        (some ("" ++ k ++ toString (view.dimSize id))) (List.replicate rest.length none)
      simp only [List.length_map] at this
      simp only [PyList_SetItem, hf, hoss, List.length_cons, List.replicate_succ, this]
      simp [specFormat, hk]
    obtain ⟨st1, h1, h2, h3⟩ := ih (pre ++ [id])
      { oss := "",
        sizes := st.sizes.set pre.length (some (view.dimSize id)),
        titles := PyList_SetItem st.titles pre.length (view.dimName id),
        formats := PyList_SetItem st.formats pre.length (st.oss ++ k ++ toString (view.dimSize id)) }
      (fun x hx => hall x (List.mem_cons_of_mem _ hx)) rfl ht1 hf1
    refine ⟨st1, ?_, by simpa using h2, by simpa using h3⟩
    simp only [descrLoop, hstep]
    simpa using h1

theorem buildNumpyDescription_ok (view : PointView)
    (hrec : ∀ id ∈ view.dims, specKindCode (view.dimType id).base ≠ none) :
    buildNumpyDescription view = .ok
      { names := view.dims.map (fun id => some (view.dimName id)),
        formats := view.dims.map (specFormat view) } := by
  obtain ⟨st1, h1, h2, h3⟩ := descrLoop_ok view view.dims []
    { oss := "", sizes := List.replicate view.dims.length none,
      formats := PyList_New view.dims.length, titles := PyList_New view.dims.length }
    hrec rfl (by simp [PyList_New]) (by simp [PyList_New])
  simp only [List.length_nil] at h1
  simp only [buildNumpyDescription, h1]
  simp at h2 h3
  simp [h2, h3]

theorem buildNumpyDescription_error_iff (view : PointView) :
    (∃ e, buildNumpyDescription view = .error e) ↔
      ∃ id ∈ view.dims, specKindCode (view.dimType id).base = none := by
  rw [← descrLoop_error_iff view view.dims 0
    { oss := "", sizes := List.replicate view.dims.length none,
      formats := PyList_New view.dims.length, titles := PyList_New view.dims.length }]
  unfold buildNumpyDescription
  simp only []
  split <;> simp_all

theorem specKindCode_eq_none (b : Dimension.BaseType) :
    specKindCode b = none ↔
      (b ≠ Dimension.BaseType.Unsigned ∧ b ≠ Dimension.BaseType.Signed ∧
        b ≠ Dimension.BaseType.Floating) := by
  cases b <;> simp [specKindCode]

/-- C1: when every dimension of the view has one of the three recognised base
types, `buildNumpyDescription` returns a dictionary whose "names" and "formats"
lists have one slot per dimension, slot `i` of "names" holding the declared name
of `dims[i]` and slot `i` of "formats" holding exactly the kind code of `dims[i]`
(`u`, `i` or `f`) followed by the decimal byte width of `dims[i]`, with no text
of an earlier field; a Floating dimension of width 8 gets "f8". -/
theorem buildNumpyDescription_names_formats (view : PointView)
    (hrec : ∀ id ∈ view.dims, specKindCode (view.dimType id).base ≠ none) :
    ∃ d, buildNumpyDescription view = .ok d ∧
      d.names.length = view.dims.length ∧ d.formats.length = view.dims.length ∧
      ∀ (i : Nat) (hi : i < view.dims.length),
        d.names[i]? = some (some (view.dimName view.dims[i])) ∧
        (∃ k, specKindCode (view.dimType view.dims[i]).base = some k ∧
          (k = "u" ∨ k = "i" ∨ k = "f") ∧
          d.formats[i]? = some (some (k ++ toString (view.dimSize view.dims[i])))) ∧
        ((view.dimType view.dims[i]).base = Dimension.BaseType.Floating →
          view.dimSize view.dims[i] = 8 → d.formats[i]? = some (some "f8")) := by
  refine ⟨_, buildNumpyDescription_ok view hrec, by simp, by simp, ?_⟩
  intro i hi
  have hmem : view.dims[i] ∈ view.dims := List.getElem_mem hi
  obtain ⟨k, hk⟩ := Option.ne_none_iff_exists'.mp (hrec _ hmem)
  refine ⟨by simp [hi], ⟨k, hk, ?_, by simp [hi, specFormat, hk]⟩, ?_⟩
  · cases hb : (view.dimType view.dims[i]).base <;> simp [hb, specKindCode] at hk <;>
      simp [← hk]
  · intro hb h8
    simp only [List.getElem?_map, List.getElem?_eq_getElem hi, Option.map_some', specFormat, hb,
      specKindCode, h8]
    decide

theorem buildNumpyDescription_names_formats_witness :
    ∃ d, buildNumpyDescription xyzView = .ok d ∧ d.names.length = 3 ∧ d.formats.length = 3 ∧
      d.names[1]? = some (some "Y") ∧ d.formats[1]? = some (some "f8") := by
  obtain ⟨d, hd, hn, hf, hi⟩ := buildNumpyDescription_names_formats xyzView (by decide)
  have h1 := (hi 1 (by decide)).1
  have e : xyzView.dimName (xyzView.dims.get ⟨1, by decide⟩) = "Y" := rfl
  simp only [List.get_eq_getElem] at e
  rw [e] at h1
  exact ⟨d, hd, hn, hf, h1, (hi 1 (by decide)).2.2 rfl rfl⟩

/-- C4: a loop iteration stores a format with kind code `u` for Unsigned, `i`
for Signed and `f` for Floating; `buildNumpyDescription` throws if and only if
some dimension of the view has a base type that is none of the three; and when
it throws it returns no dictionary. -/
theorem buildNumpyDescription_kind_and_failure (view : PointView) :
    (∀ (i : Nat) (id : Dimension.Id) (st : DescrState),
      ((view.dimType id).base = Dimension.BaseType.Unsigned →
        ∃ st1, descrStep view i id st = .ok st1 ∧
          st1.formats = PyList_SetItem st.formats i (st.oss ++ "u" ++ toString (view.dimSize id))) ∧
      ((view.dimType id).base = Dimension.BaseType.Signed →
        ∃ st1, descrStep view i id st = .ok st1 ∧
          st1.formats = PyList_SetItem st.formats i (st.oss ++ "i" ++ toString (view.dimSize id))) ∧
      ((view.dimType id).base = Dimension.BaseType.Floating →
        ∃ st1, descrStep view i id st = .ok st1 ∧
          st1.formats = PyList_SetItem st.formats i (st.oss ++ "f" ++ toString (view.dimSize id)))) ∧
    ((∃ e, buildNumpyDescription view = .error e) ↔
      ∃ id ∈ view.dims, (view.dimType id).base ≠ Dimension.BaseType.Unsigned ∧
        (view.dimType id).base ≠ Dimension.BaseType.Signed ∧
        (view.dimType id).base ≠ Dimension.BaseType.Floating) ∧
    (∀ e, buildNumpyDescription view = .error e → ∀ d, buildNumpyDescription view ≠ .ok d) := by
  refine ⟨?_, ?_, ?_⟩
  · intro i id st
    refine ⟨fun hb => ?_, fun hb => ?_, fun hb => ?_⟩
    · exact ⟨_, descrStep_ok view i id st "u" (by simp [hb, specKindCode]), rfl⟩
    · exact ⟨_, descrStep_ok view i id st "i" (by simp [hb, specKindCode]), rfl⟩
    · exact ⟨_, descrStep_ok view i id st "f" (by simp [hb, specKindCode]), rfl⟩
  · rw [buildNumpyDescription_error_iff]
    simp only [specKindCode_eq_none]
  · intro e he d hd
    rw [he] at hd
    cases hd


/-! ## Packing -/

theorem writeAt_length (buf : List Byte) (off : Nat) (src : List Byte) :
    (writeAt buf off src).length = buf.length := by
  simp only [writeAt, List.length_append, List.length_take, List.length_drop]
  omega

theorem foldl_writeAt_length (f : Nat → Nat) (g : Nat → List Byte) (l : List Nat) :
    ∀ data : List Byte,
      (l.foldl (fun buf idx => writeAt buf (f idx) (g idx)) data).length = data.length := by
  induction l with
  | nil => intro data; rfl
  | cons x l ih => intro data; simp only [List.foldl_cons, ih, writeAt_length]

theorem packLoop_length (view : PointView) (types : DimTypeList) (data : List Byte) :
    (packLoop view types data).length = data.length :=
  foldl_writeAt_length _ _ _ data

theorem pdataInit_length (view : PointView) :
    (pdataInit view).length = view.pointSize * view.size := by
  simp [pdataInit]

/-- The records written so far, followed by the untouched rest of the vector. -/
theorem foldl_writeAt_range (ps : Nat) (g : Nat → List Byte) (data : List Byte) (n : Nat)
    (hdata : data.length = ps * n) :
    ∀ k, k ≤ n → (∀ i, i < k → (g i).length = ps) →
      (List.range k).foldl (fun buf idx => writeAt buf (ps * idx) (g idx)) data =
        ((List.range k).map g).flatten ++ data.drop (ps * k) := by
  intro k
  induction k with
  | zero => intro _ _; simp
  | succ k ih =>
    intro hk hg
    have ih1 := ih (by omega) (fun i hi => hg i (by omega))
    have hlenA : (((List.range k).map g).flatten).length = ps * k := by
      rw [List.length_flatten, List.map_map]
      have : List.map (List.length ∘ g) (List.range k) = List.replicate k ps := by
        apply List.ext_getElem
        · simp
        · intro i h1 h2
          simp at h1
          simp [hg i (by omega)]
      rw [this]; simp [Nat.mul_comm]
    have hgk : (g k).length = ps := hg k (by omega)
    have hle : ps * (k + 1) ≤ ps * n := Nat.mul_le_mul_left ps hk
    rw [List.range_succ, List.foldl_append, ih1]
    simp only [List.foldl_cons, List.foldl_nil, List.map_append, List.map_cons, List.map_nil,
      List.flatten_append, List.flatten_cons, List.flatten_nil, List.append_nil]
    have hA : ∀ (X : List Byte), X.length = ps * k → ∀ (R : List Byte), R.length = ps * n - ps * k →
        writeAt (X ++ R) (ps * k) (g k) = X ++ g k ++ R.drop ps := by
      intro X hX R hR
      unfold writeAt
      rw [← hX, List.take_left, List.length_append, hR, hX, hgk,
        List.take_of_length_le (by rw [hgk]; rw [Nat.mul_succ] at hle; omega)]
      rw [← hX, ← List.drop_drop, List.drop_left]
    rw [hA _ hlenA _ (by rw [List.length_drop, hdata]), List.drop_drop, Nat.mul_succ]

theorem packLoop_eq_flatten (view : PointView) (types : DimTypeList)
    (hlen : ∀ i, i < view.size → (view.getPackedPoint types i).length = view.pointSize) :
    packLoop view types (pdataInit view) =
      ((List.range view.size).map (view.getPackedPoint types)).flatten := by
  unfold packLoop
  rw [foldl_writeAt_range view.pointSize _ _ view.size (pdataInit_length view) view.size
    (le_refl _) hlen]
  rw [List.drop_of_length_le (by rw [pdataInit_length])]
  simp


theorem flatten_drop_blocks {α : Type} (ps : Nat) (L : List (List α))
    (hL : ∀ x ∈ L, x.length = ps) :
    ∀ i, L.flatten.drop (i * ps) = (L.drop i).flatten := by
  induction L with
  | nil => intro i; simp
  | cons x L ih =>
    intro i
    cases i with
    | zero => simp
    | succ i =>
      have hx : x.length = ps := hL x (List.mem_cons_self _ _)
      rw [List.flatten_cons, List.drop_succ_cons, ← ih (fun y hy => hL y (List.mem_cons_of_mem _ hy)) i,
        Nat.succ_mul, Nat.add_comm, ← List.drop_drop]
      rw [← hx, List.drop_left]

theorem flatten_slice {α : Type} (L : List (List α)) :
    ∀ (j : Nat) (hj : j < L.length),
      (L.flatten.drop ((L.take j).map List.length).sum).take L[j].length = L[j] := by
  induction L with
  | nil => intro j hj; simp at hj
  | cons x L ih =>
    intro j hj
    cases j with
    | zero => simp
    | succ j =>
      simp only [List.take_succ_cons, List.map_cons, List.sum_cons, List.flatten_cons,
        List.getElem_cons_succ]
      rw [← List.drop_drop, List.drop_left]
      exact ih j (by simpa using hj)

theorem flatten_slice_le {α : Type} (L : List (List α)) (j : Nat) (hj : j < L.length) :
    ((L.take j).map List.length).sum + L[j].length ≤ L.flatten.length := by
  induction L generalizing j with
  | nil => simp at hj
  | cons x L ih =>
    cases j with
    | zero => simp
    | succ j =>
      have := ih j (by simpa using hj)
      simp only [List.take_succ_cons, List.map_cons, List.sum_cons, List.flatten_cons,
        List.getElem_cons_succ, List.length_append]
      omega

/-- Reading a field back from a sequence of equally long records, each the
concatenation of its fields. -/
theorem records_slice (n ps : Nat) (rec : Nat → List (List Byte))
    (hps : ∀ i, i < n → (rec i).flatten.length = ps)
    (i : Nat) (hi : i < n) (j : Nat) (hj : j < (rec i).length) :
    ((((List.range n).map (fun i => (rec i).flatten)).flatten.drop
        (i * ps + (((rec i).take j).map List.length).sum)).take ((rec i)[j]).length) = (rec i)[j] := by
  have hblocks : ∀ x ∈ (List.range n).map (fun i => (rec i).flatten), x.length = ps := by
    intro x hx
    simp only [List.mem_map, List.mem_range] at hx
    obtain ⟨a, ha, rfl⟩ := hx
    exact hps a ha
  rw [← List.drop_drop, flatten_drop_blocks ps _ hblocks i]
  have hdrop : ((List.range n).map (fun i => (rec i).flatten)).drop i =
      (rec i).flatten :: ((List.range n).map (fun i => (rec i).flatten)).drop (i + 1) := by
    rw [List.drop_eq_getElem_cons (by simpa using hi)]
    simp
  rw [hdrop, List.flatten_cons]
  have hle := flatten_slice_le (rec i) j hj
  rw [List.drop_append_of_le_length (by omega), List.take_append_of_le_length
    (by rw [List.length_drop]; omega)]
  exact flatten_slice (rec i) j hj

namespace Array

theorem cleanup_own (self : Array) (w : World) :
    (self.cleanup w).1.m_own_array = self.m_own_array := by
  unfold cleanup
  split <;> simp_all

theorem cleanup_py (self : Array) (w : World) :
    (self.cleanup w).1.m_py_array = self.m_py_array := by
  unfold cleanup
  split <;> simp_all

theorem cleanup_data_own (self : Array) (w : World) (h : self.m_own_array = true) :
    (self.cleanup w).1.m_data_array = none := by
  simp [cleanup, h]

theorem update_ok (rt : Runtime) (self : Array) (view : PointView) (w : World) (d : DtypeDict)
    (hd : buildNumpyDescription view = .ok d) (hc : rt.PyArray_DescrConverter d = true) :
    self.update rt view w =
      (Outcome.returned,
        { m_py_array :=
            if rt.PyArray_NewFromDescr d view.size then some ((self.cleanup w).2.length + 1) else none,
          m_data_array := some
            { id := (self.cleanup w).2.length,
              bytes := packLoop view view.dimTypes (pdataInit view) },
          m_own_array := self.m_own_array },
        release (self.cleanup w).1.m_data_array
          (if rt.PyArray_NewFromDescr d view.size then
            (self.cleanup w).2 ++ [Event.alloc (self.cleanup w).2.length,
              Event.newArray ((self.cleanup w).2.length + 1) (self.cleanup w).2.length]
           else (self.cleanup w).2 ++ [Event.alloc (self.cleanup w).2.length])) := by
  cases hn : rt.PyArray_NewFromDescr d view.size <;>
    simp [update, hd, hc, hn, cleanup_own, cleanup_py]

theorem update_thrown_build (rt : Runtime) (self : Array) (view : PointView) (w : World) (e : String)
    (hd : buildNumpyDescription view = .error e) :
    self.update rt view w =
      (Outcome.thrown e, (self.cleanup w).1,
        (self.cleanup w).2 ++ [Event.alloc (self.cleanup w).2.length,
          Event.free (self.cleanup w).2.length]) := by
  simp [update, hd]

theorem update_thrown_conv (rt : Runtime) (self : Array) (view : PointView) (w : World) (d : DtypeDict)
    (hd : buildNumpyDescription view = .ok d) (hc : rt.PyArray_DescrConverter d = false) :
    self.update rt view w =
      (Outcome.thrown "Unable to build numpy dtype", (self.cleanup w).1,
        (self.cleanup w).2 ++ [Event.alloc (self.cleanup w).2.length,
          Event.free (self.cleanup w).2.length]) := by
  simp [update, hd, hc]

theorem update_returned_iff (rt : Runtime) (self : Array) (view : PointView) (w : World) :
    (self.update rt view w).1 = Outcome.returned ↔
      ∃ d, buildNumpyDescription view = .ok d ∧ rt.PyArray_DescrConverter d = true := by
  cases hd : buildNumpyDescription view with
  | error e => simp [update_thrown_build rt self view w e hd]
  | ok d =>
    cases hc : rt.PyArray_DescrConverter d with
    | false => simp [update_thrown_conv rt self view w d hd hc, hc]
    | true => simp [update_ok rt self view w d hd hc, hc]

end Array


namespace Array

theorem update_own (rt : Runtime) (self : Array) (view : PointView) (w : World) :
    (self.update rt view w).2.1.m_own_array = self.m_own_array := by
  cases hd : buildNumpyDescription view with
  | error e => simp [update_thrown_build rt self view w e hd, cleanup_own]
  | ok d =>
    cases hc : rt.PyArray_DescrConverter d with
    | false => simp [update_thrown_conv rt self view w d hd hc, cleanup_own]
    | true => simp [update_ok rt self view w d hd hc]

theorem update_bytes_own (rt : Runtime) (self : Array) (view : PointView) (w : World)
    (ho : self.m_own_array = true) :
    (self.update rt view w).2.1.m_data_array.map Buffer.bytes = snapshotBytes rt view := by
  unfold snapshotBytes
  cases hd : buildNumpyDescription view with
  | error e => simp [update_thrown_build rt self view w e hd, cleanup_data_own self w ho]
  | ok d =>
    cases hc : rt.PyArray_DescrConverter d with
    | false => simp [update_thrown_conv rt self view w d hd hc, cleanup_data_own self w ho, hc]
    | true => simp [update_ok rt self view w d hd hc, hc]

end Array

/-- C2: for a view whose point size is the sum of the widths of its
dimensions, the vector allocated by `update` has `rowStride * size` bytes, all
zero, before the copy loop runs; the buffer held after a returned `update` is
that vector after the copy loop and has the same length; and when the view has
no points or no dimensions the length is 0 and `update` throws nothing (given
dimensions of recognised base types and a runtime that converts the
description, the conditions of the two `throw` statements). -/
theorem update_buffer_length (rt : Runtime) (self : Array) (view : PointView) (w : World)
    (hps : view.pointSize = rowStride view) :
    (pdataInit view).length = rowStride view * view.size ∧
    (∀ x ∈ pdataInit view, x = 0) ∧
    ((self.update rt view w).1 = Outcome.returned →
      ∃ b, (self.update rt view w).2.1.m_data_array = some b ∧
        Event.alloc b.id ∈ (self.update rt view w).2.2 ∧
        b.bytes = packLoop view view.dimTypes (pdataInit view) ∧
        b.bytes.length = rowStride view * view.size) ∧
    ((view.size = 0 ∨ view.dims = []) →
      (pdataInit view).length = 0 ∧
      ((∀ id ∈ view.dims, specKindCode (view.dimType id).base ≠ none) →
        (∀ d, buildNumpyDescription view = .ok d → rt.PyArray_DescrConverter d = true) →
        (self.update rt view w).1 = Outcome.returned ∧
        ∃ b, (self.update rt view w).2.1.m_data_array = some b ∧ b.bytes = [])) := by
  have hlen : (pdataInit view).length = rowStride view * view.size := by
    rw [pdataInit_length, hps]
  have hzero : (view.size = 0 ∨ view.dims = []) → (pdataInit view).length = 0 := by
    intro h
    rw [hlen]
    rcases h with h | h
    · simp [h]
    · simp [rowStride, h]
  refine ⟨hlen, ?_, ?_, ?_⟩
  · intro x hx
    exact (List.mem_replicate.mp hx).2
  · intro hret
    obtain ⟨d, hd, hc⟩ := (Array.update_returned_iff rt self view w).mp hret
    refine ⟨_, by rw [Array.update_ok rt self view w d hd hc], ?_, rfl, ?_⟩
    · rw [Array.update_ok rt self view w d hd hc]
      simp only [release]
      split <;> split <;> simp
    · simp only [packLoop_length, hlen]
  · intro h
    refine ⟨hzero h, fun hrec hconv => ?_⟩
    have hd := buildNumpyDescription_ok view hrec
    have hc := hconv _ hd
    refine ⟨(Array.update_returned_iff rt self view w).mpr ⟨_, hd, hc⟩, _,
      by rw [Array.update_ok rt self view w _ hd hc], ?_⟩
    apply List.eq_nil_of_length_eq_zero
    simp only [packLoop_length, hzero h]

theorem update_buffer_length_witness :
    xyzView.pointSize = rowStride xyzView ∧
    (pdataInit xyzView).length = 72 ∧
    (Array.default.update rtAccept xyzView []).1 = Outcome.returned ∧
    (∃ b, (Array.default.update rtAccept xyzView []).2.1.m_data_array = some b ∧
        b.bytes.length = 72) := by
  have h := update_buffer_length rtAccept Array.default xyzView [] (by decide)
  have hret : (Array.default.update rtAccept xyzView []).1 = Outcome.returned := by decide
  obtain ⟨b, hb, _, _, hl⟩ := h.2.2.1 hret
  exact ⟨by decide, h.1, hret, b, hb, hl⟩


/-- C3: when the accessor writes the fields of a point in dimension order with
no padding (field `j` of point `i` taking `dimSize` of dimension `j` bytes, a
packed point taking `pointSize` = `rowStride` bytes), then after a returned
`update` the `dimSize dims[j]` bytes of the buffer at offset
`i * rowStride + fieldOffset j` are the bytes of field `j` of point `i`, for
every `i < size` and `j < dims.length`; for 3 points and three dimensions of
width 8 the row stride is 24, the buffer has 72 bytes and the fields of point 1
start at offsets 24, 32 and 40. -/
theorem update_round_trip (rt : Runtime) (self : Array) (view : PointView) (w : World)
    (field : PointId → Dimension.Id → List Byte)
    (hps : view.pointSize = rowStride view)
    (hacc : ∀ i, i < view.size →
      view.getPackedPoint view.dimTypes i = (view.dims.map (field i)).flatten)
    (hwidth : ∀ i, i < view.size → ∀ id ∈ view.dims, (field i id).length = view.dimSize id)
    (hret : (self.update rt view w).1 = Outcome.returned) :
    ∃ b, (self.update rt view w).2.1.m_data_array = some b ∧
      b.bytes.length = rowStride view * view.size ∧
      (∀ (i : Nat), i < view.size → ∀ (j : Nat) (hj : j < view.dims.length),
        (b.bytes.drop (i * rowStride view + fieldOffset view j)).take (view.dimSize view.dims[j]) =
          field i view.dims[j]) ∧
      (view.size = 3 → view.dims.map view.dimSize = [8, 8, 8] →
        rowStride view = 24 ∧ b.bytes.length = 72 ∧
        1 * rowStride view + fieldOffset view 0 = 24 ∧
        1 * rowStride view + fieldOffset view 1 = 32 ∧
        1 * rowStride view + fieldOffset view 2 = 40) := by
  obtain ⟨d, hd, hc⟩ := (Array.update_returned_iff rt self view w).mp hret
  have hfl : ∀ i, i < view.size → ((view.dims.map (field i)).flatten).length = rowStride view := by
    intro i hi
    rw [List.length_flatten, List.map_map, rowStride]
    congr 1
    apply List.map_congr_left
    intro id hid
    exact hwidth i hi id hid
  have hbytes : packLoop view view.dimTypes (pdataInit view) =
      ((List.range view.size).map (fun i => (view.dims.map (field i)).flatten)).flatten := by
    rw [packLoop_eq_flatten view view.dimTypes (fun i hi => by rw [hacc i hi, hfl i hi, hps])]
    congr 1
    apply List.map_congr_left
    intro i hi
    exact hacc i (List.mem_range.mp hi)
  have hlen : (packLoop view view.dimTypes (pdataInit view)).length = rowStride view * view.size := by
    rw [packLoop_length, pdataInit_length, hps]
  refine ⟨_, by rw [Array.update_ok rt self view w d hd hc], hlen, ?_, ?_⟩
  · intro i hi j hj
    have hj1 : j < (view.dims.map (field i)).length := by simpa using hj
    have := records_slice view.size (rowStride view) (fun i => view.dims.map (field i)) hfl i hi j hj1
    simp only [List.getElem_map] at this
    rw [hwidth i hi _ (List.getElem_mem hj)] at this
    have hoff : (((view.dims.map (field i)).take j).map List.length).sum = fieldOffset view j := by
      rw [← List.map_take, List.map_map, fieldOffset]
      congr 1
      apply List.map_congr_left
      intro id hid
      exact hwidth i hi id (List.mem_of_mem_take hid)
    rw [hoff] at this
    simpa [hbytes] using this
  · intro h3 h8
    have hs : rowStride view = 24 := by simp [rowStride, h8]
    have h0 : fieldOffset view 0 = 0 := by simp [fieldOffset]
    have h1 : fieldOffset view 1 = 8 := by
      rw [fieldOffset, List.map_take, h8]; rfl
    have h2 : fieldOffset view 2 = 16 := by
      rw [fieldOffset, List.map_take, h8]; rfl
    refine ⟨hs, ?_, ?_, ?_, ?_⟩
    · show (packLoop view view.dimTypes (pdataInit view)).length = 72
      rw [hlen, hs, h3]
    · rw [hs, h0]
    · rw [hs, h1]
    · rw [hs, h2]

theorem update_round_trip_witness :
    ∃ b, (Array.default.update rtAccept xyzView []).2.1.m_data_array = some b ∧
      b.bytes.length = 72 ∧
      (b.bytes.drop 24).take 8 = [0, 0, 0, 0, 0, 0, 0xF0, 0x3F] ∧
      (b.bytes.drop 32).take 8 = [0, 0, 0, 0, 0, 0, 0x00, 0x40] ∧
      (b.bytes.drop 40).take 8 = [0, 0, 0, 0, 0, 0, 0x08, 0x40] := by
  obtain ⟨b, hb, hlen, hfield, _⟩ :=
    update_round_trip rtAccept Array.default xyzView [] xyzField (by decide) (by decide)
      (by decide) (by decide)
  have f0 := hfield 1 (by decide) 0 (by decide)
  have f1 := hfield 1 (by decide) 1 (by decide)
  have f2 := hfield 1 (by decide) 2 (by decide)
  have e0 : 1 * rowStride xyzView + fieldOffset xyzView 0 = 24 := by decide
  have e1 : 1 * rowStride xyzView + fieldOffset xyzView 1 = 32 := by decide
  have e2 : 1 * rowStride xyzView + fieldOffset xyzView 2 = 40 := by decide
  rw [e0] at f0
  rw [e1] at f1
  rw [e2] at f2
  exact ⟨b, hb, hlen, f0, f1, f2⟩

/-- C10: for owning handles the bytes of the buffer held after `update` are a
function of the view (and the runtime) alone, whatever the handle and the trace
were before; so two consecutive `update` calls over the same view leave the
same bytes. -/
theorem update_buffer_depends_on_view_only (rt : Runtime) (h1 h2 : Array) (view : PointView)
    (w1 w2 : World) (ho1 : h1.m_own_array = true) (ho2 : h2.m_own_array = true) :
    (h1.update rt view w1).2.1.m_data_array.map Buffer.bytes = snapshotBytes rt view ∧
    (h1.update rt view w1).2.1.m_data_array.map Buffer.bytes =
      (h2.update rt view w2).2.1.m_data_array.map Buffer.bytes ∧
    (((h1.update rt view w1).2.1.update rt view (h1.update rt view w1).2.2).2.1.m_data_array.map
        Buffer.bytes =
      (h1.update rt view w1).2.1.m_data_array.map Buffer.bytes) := by
  have e1 := Array.update_bytes_own rt h1 view w1 ho1
  have e2 := Array.update_bytes_own rt h2 view w2 ho2
  have e3 := Array.update_bytes_own rt (h1.update rt view w1).2.1 view (h1.update rt view w1).2.2
    (by rw [Array.update_own, ho1])
  exact ⟨e1, by rw [e1, e2], by rw [e3, e1]⟩

theorem update_buffer_depends_on_view_only_witness :
    (Array.default.update rtAccept xyzView []).2.1.m_data_array.map Buffer.bytes =
        snapshotBytes rtAccept xyzView ∧
    (Array.default.update rtAccept xyzView []).2.1.m_data_array.map Buffer.bytes =
      ((Array.default.update rtAccept badView []).2.1.update rtAccept xyzView
        (Array.default.update rtAccept badView []).2.2).2.1.m_data_array.map Buffer.bytes :=
  ⟨(update_buffer_depends_on_view_only rtAccept Array.default Array.default xyzView [] []
      rfl rfl).1,
    (update_buffer_depends_on_view_only rtAccept Array.default
      (Array.default.update rtAccept badView []).2.1 xyzView []
      (Array.default.update rtAccept badView []).2.2 rfl (by decide)).2.1⟩


/-! ## Traces -/

theorem allocIds_append (w1 w2 : World) : allocIds (w1 ++ w2) = allocIds w1 ++ allocIds w2 := by
  simp [allocIds]

theorem freeIds_append (w1 w2 : World) : freeIds (w1 ++ w2) = freeIds w1 ++ freeIds w2 := by
  simp [freeIds]

theorem createdIds_append (w1 w2 : World) :
    createdIds (w1 ++ w2) = createdIds w1 ++ createdIds w2 := by
  simp [createdIds]

theorem increfIds_append (w1 w2 : World) :
    increfIds (w1 ++ w2) = increfIds w1 ++ increfIds w2 := by
  simp [increfIds]

theorem decrefIds_append (w1 w2 : World) :
    decrefIds (w1 ++ w2) = decrefIds w1 ++ decrefIds w2 := by
  simp [decrefIds]

theorem good_default : Good Array.default [] 0 := by
  constructor <;> simp [Array.default, allocIds, freeIds, createdIds, increfIds, decrefIds]

theorem cleanup_trace (h : Array) (w : World) (k : Nat) (hg : Good h w k) :
    (h.cleanup w).1.m_data_array = none ∧
    allocIds (h.cleanup w).2 = allocIds w ∧
    freeIds (h.cleanup w).2 = allocIds w ∧
    createdIds (h.cleanup w).2 = createdIds w ∧
    decrefIds (h.cleanup w).2 = createdIds w ∧
    increfIds (h.cleanup w).2 = [] ∧
    w.length ≤ (h.cleanup w).2.length := by
  obtain ⟨hown, hinc, hal, hcr, -, -, -, -, -, -, -⟩ := hg
  rcases h with ⟨p, dta, own⟩
  simp only at hown hal hcr
  subst hown
  cases p <;> cases dta <;>
    simp_all [Array.cleanup, release, Py_XDECREF, allocIds_append, freeIds_append,
      createdIds_append, decrefIds_append, increfIds_append] <;>
    simp [allocIds, freeIds, createdIds, decrefIds, increfIds]

theorem succeeds_iff (rt : Runtime) (h : Array) (view : PointView) (w : World) :
    h.succeeds rt view w = true ↔
      ∃ d, buildNumpyDescription view = .ok d ∧ rt.PyArray_DescrConverter d = true ∧
        rt.PyArray_NewFromDescr d view.size = true := by
  unfold Array.succeeds
  rw [Bool.and_eq_true, decide_eq_true_iff, Array.update_returned_iff]
  constructor
  · rintro ⟨⟨d, hd, hc⟩, hs⟩
    refine ⟨d, hd, hc, ?_⟩
    rw [Array.update_ok rt h view w d hd hc] at hs
    by_contra hn
    simp [hn] at hs
  · rintro ⟨d, hd, hc, hn⟩
    refine ⟨⟨d, hd, hc⟩, ?_⟩
    rw [Array.update_ok rt h view w d hd hc]
    simp [hn]

theorem ids_alloc_new (w : World) (a b : Nat) :
    allocIds (w ++ [Event.alloc b, Event.newArray a b]) = allocIds w ++ [b] ∧
    freeIds (w ++ [Event.alloc b, Event.newArray a b]) = freeIds w ∧
    createdIds (w ++ [Event.alloc b, Event.newArray a b]) = createdIds w ++ [a] ∧
    decrefIds (w ++ [Event.alloc b, Event.newArray a b]) = decrefIds w ∧
    increfIds (w ++ [Event.alloc b, Event.newArray a b]) = increfIds w := by
  refine ⟨?_, ?_, ?_, ?_, ?_⟩
  · rw [allocIds_append]; rfl
  · rw [freeIds_append]; exact List.append_nil _
  · rw [createdIds_append]; rfl
  · rw [decrefIds_append]; exact List.append_nil _
  · rw [increfIds_append]; exact List.append_nil _

theorem update_good (rt : Runtime) (h : Array) (view : PointView) (w : World) (k : Nat)
    (hg : Good h w k) (hs : h.succeeds rt view w = true) :
    Good (h.update rt view w).2.1 (h.update rt view w).2.2 (k + 1) := by
  obtain ⟨d, hd, hc, hn⟩ := (succeeds_iff rt h view w).mp hs
  obtain ⟨c1, c2, c3, c4, c5, c6, c7⟩ := cleanup_trace h w k hg
  rw [Array.update_ok rt h view w d hd hc, c1]
  simp only [hn, if_true, release]
  obtain ⟨i1, i2, i3, i4, i5⟩ := ids_alloc_new (h.cleanup w).2 ((h.cleanup w).2.length + 1)
    (h.cleanup w).2.length
  have hfreshA : (h.cleanup w).2.length ∉ allocIds w := by
    intro hmem
    have := hg.allocLt _ hmem
    omega
  have hfreshC : (h.cleanup w).2.length + 1 ∉ createdIds w := by
    intro hmem
    have := hg.createdLt _ hmem
    omega
  constructor
  · exact hg.own
  · rw [i5, c6]
  · rw [i1, i2, c2, c3]; rfl
  · rw [i3, i4, c4, c5]; rfl
  · rw [i1, c2]
    exact List.Nodup.append hg.allocNodup (by simp) (by simpa using hfreshA)
  · rw [i3, c4]
    exact List.Nodup.append hg.createdNodup (by simp) (by simpa using hfreshC)
  · intro x hx
    rw [i1, c2, List.mem_append, List.mem_singleton] at hx
    have := hg.allocLt x
    simp only [List.length_append, List.length_cons, List.length_nil]
    rcases hx with hx | hx
    · have := this hx; omega
    · omega
  · intro x hx
    rw [i3, c4, List.mem_append, List.mem_singleton] at hx
    have := hg.createdLt x
    simp only [List.length_append, List.length_cons, List.length_nil]
    rcases hx with hx | hx
    · have := this hx; omega
    · omega
  · rw [i1, c2, List.length_append, hg.allocLen]; rfl
  · rw [i3, c4, List.length_append, hg.createdLen]; rfl
  · simp

theorem updates_good (rt : Runtime) (vs : List PointView) :
    ∀ (h : Array) (w : World) (k : Nat), Good h w k → h.allSucceed rt vs w = true →
      Good (h.updates rt vs w).1 (h.updates rt vs w).2 (k + vs.length) := by
  induction vs with
  | nil => intro h w k hg _; simpa [Array.updates] using hg
  | cons v vs ih =>
    intro h w k hg hs
    simp only [Array.allSucceed, Bool.and_eq_true] at hs
    have := ih _ _ (k + 1) (update_good rt h v w k hg hs.1) hs.2
    simp only [Array.updates, List.length_cons]
    rw [show k + (vs.length + 1) = k + 1 + vs.length by omega]
    exact this

theorem allSucceed_take (rt : Runtime) (vs : List PointView) :
    ∀ (h : Array) (w : World) (n : Nat), h.allSucceed rt vs w = true →
      h.allSucceed rt (vs.take n) w = true := by
  induction vs with
  | nil => intro h w n hs; simpa using hs
  | cons v vs ih =>
    intro h w n hs
    cases n with
    | zero => simp [Array.allSucceed]
    | succ n =>
      simp only [Array.allSucceed, Bool.and_eq_true, List.take_succ_cons] at hs ⊢
      exact ⟨hs.1, ih _ _ n hs.2⟩

theorem destroy_trace (h : Array) (w : World) (k : Nat) (hg : Good h w k) :
    allocIds (h.destroy w) = allocIds w ∧
    freeIds (h.destroy w) = allocIds w ∧
    createdIds (h.destroy w) = createdIds w ∧
    decrefIds (h.destroy w) = createdIds w ∧
    increfIds (h.destroy w) = [] := by
  obtain ⟨c1, c2, c3, c4, c5, c6, c7⟩ := cleanup_trace h w k hg
  simp only [Array.destroy, c1, release]
  exact ⟨c2, c3, c4, c5, c6⟩


/-- C7: for every sequence of N successful `update` calls on a
default-constructed handle followed by its destruction, N vectors have been
allocated and N destroyed, none twice (the destroyed ones are the allocated
ones, each named once); N arrays have been created, no other reference was
taken, and each created array is released exactly once; and after the first k
calls (any k up to N) the number of references held is 0 for k = 0 and 1
otherwise, the one held being the array in the handle. -/
theorem rebuild_safety (rt : Runtime) (views : List PointView)
    (hok : Array.default.allSucceed rt views [] = true) :
    (∀ k, k ≤ views.length →
      liveRefs (Array.default.updates rt (views.take k) []).2 = (if k = 0 then 0 else 1) ∧
      (Array.default.updates rt (views.take k) []).1.m_py_array.isSome = decide (0 < k) ∧
      createdIds (Array.default.updates rt (views.take k) []).2 =
        decrefIds (Array.default.updates rt (views.take k) []).2 ++
          (Array.default.updates rt (views.take k) []).1.m_py_array.toList) ∧
    (allocIds ((Array.default.updates rt views []).1.destroy
      (Array.default.updates rt views []).2)).length = views.length ∧
    (freeIds ((Array.default.updates rt views []).1.destroy
      (Array.default.updates rt views []).2)).length = views.length ∧
    (freeIds ((Array.default.updates rt views []).1.destroy
      (Array.default.updates rt views []).2)).Nodup ∧
    freeIds ((Array.default.updates rt views []).1.destroy (Array.default.updates rt views []).2) =
      allocIds ((Array.default.updates rt views []).1.destroy
        (Array.default.updates rt views []).2) ∧
    (createdIds ((Array.default.updates rt views []).1.destroy
      (Array.default.updates rt views []).2)).length = views.length ∧
    increfIds ((Array.default.updates rt views []).1.destroy
      (Array.default.updates rt views []).2) = [] ∧
    (∀ a ∈ createdIds ((Array.default.updates rt views []).1.destroy
        (Array.default.updates rt views []).2),
      (createdIds ((Array.default.updates rt views []).1.destroy
        (Array.default.updates rt views []).2)).count a = 1 ∧
      (decrefIds ((Array.default.updates rt views []).1.destroy
        (Array.default.updates rt views []).2)).count a = 1) ∧
    (∀ a ∈ decrefIds ((Array.default.updates rt views []).1.destroy
        (Array.default.updates rt views []).2),
      a ∈ createdIds ((Array.default.updates rt views []).1.destroy
        (Array.default.updates rt views []).2)) ∧
    liveRefs ((Array.default.updates rt views []).1.destroy
      (Array.default.updates rt views []).2) = 0 := by
  have hg := updates_good rt views Array.default [] 0 good_default hok
  rw [Nat.zero_add] at hg
  obtain ⟨d1, d2, d3, d4, d5⟩ := destroy_trace _ _ _ hg
  refine ⟨?_, ?_, ?_, ?_, ?_, ?_, d5, ?_, ?_, ?_⟩
  · intro k hk
    have hgk := updates_good rt (views.take k) Array.default [] 0 good_default
      (allSucceed_take rt views _ _ k hok)
    rw [Nat.zero_add, List.length_take, Nat.min_eq_left hk] at hgk
    refine ⟨?_, hgk.held, hgk.created⟩
    have hc := congrArg List.length hgk.created
    rw [hgk.createdLen, List.length_append] at hc
    have hh := hgk.held
    unfold liveRefs
    rw [hgk.createdLen, hgk.increfs]
    cases hp : (Array.default.updates rt (views.take k) []).1.m_py_array with
    | none =>
      rw [hp] at hh hc
      simp at hh hc
      simp [hh]
    | some a =>
      rw [hp] at hh hc
      simp at hh hc
      have : k ≠ 0 := by omega
      simp [this]
      omega
  · rw [d1, hg.allocLen]
  · rw [d2, hg.allocLen]
  · rw [d2]; exact hg.allocNodup
  · rw [d1, d2]
  · rw [d3, hg.createdLen]
  · intro a ha
    rw [d3] at ha
    rw [d3, d4]
    exact ⟨List.count_eq_one_of_mem hg.createdNodup ha, List.count_eq_one_of_mem hg.createdNodup ha⟩
  · intro a ha
    rw [d4] at ha
    rw [d3]
    exact ha
  · unfold liveRefs
    rw [d3, d4, d5]
    simp

theorem rebuild_safety_witness :
    Array.default.allSucceed rtAccept [xyzView, xyzView, xyzView] [] = true ∧
    (allocIds ((Array.default.updates rtAccept [xyzView, xyzView, xyzView] []).1.destroy
      (Array.default.updates rtAccept [xyzView, xyzView, xyzView] []).2)).length = 3 ∧
    (freeIds ((Array.default.updates rtAccept [xyzView, xyzView, xyzView] []).1.destroy
      (Array.default.updates rtAccept [xyzView, xyzView, xyzView] []).2)).length = 3 ∧
    liveRefs ((Array.default.updates rtAccept [xyzView, xyzView, xyzView] []).1.destroy
      (Array.default.updates rtAccept [xyzView, xyzView, xyzView] []).2) = 0 :=
  have h := rebuild_safety rtAccept [xyzView, xyzView, xyzView] (by decide)
  ⟨by decide, h.2.1, h.2.2.1, h.2.2.2.2.2.2.2.2.2⟩


/-- C5, as stated, fails: after one `update` the default-constructed handle is
owning and holds vector 0 and array 1 created over it; its destructor extends
the trace by the destruction of vector 0 followed by the release of array 1, so
after the first of the two steps the vector is gone while the reference is
still held; a second `update` goes through the same two steps. -/
theorem cleanup_order_counterexample :
    (Array.default.update rtAccept xyzView []).2.1.m_own_array = true ∧
    (Array.default.update rtAccept xyzView []).2.1.m_py_array = some 1 ∧
    (Array.default.update rtAccept xyzView []).2.1.m_data_array.map Buffer.id = some 0 ∧
    (Array.default.update rtAccept xyzView []).2.2 = [Event.alloc 0, Event.newArray 1 0] ∧
    (Array.default.update rtAccept xyzView []).2.1.destroy
        (Array.default.update rtAccept xyzView []).2.2 =
      [Event.alloc 0, Event.newArray 1 0, Event.free 0, Event.decref 1] ∧
    dangling (((Array.default.update rtAccept xyzView []).2.1.destroy
        (Array.default.update rtAccept xyzView []).2.2).take 3) = true ∧
    dangling ((((Array.default.update rtAccept xyzView []).2.1.update rtAccept xyzView
        (Array.default.update rtAccept xyzView []).2.2).2.2).take 3) = true := by
  decide

/-- C5, amended: on an owning handle that holds a buffer and an array,
`cleanup` destroys the buffer first and drops the array reference in the very
next step, with nothing in between, and leaves the handle without a buffer;
`update` and the destructor start with exactly these two steps. -/
theorem cleanup_frees_then_decrefs (self : Array) (w : World) (b : Buffer) (a : PyObj)
    (hown : self.m_own_array = true) (hb : self.m_data_array = some b)
    (ha : self.m_py_array = some a) :
    (self.cleanup w).2 = w ++ [Event.free b.id, Event.decref a] ∧
    (self.cleanup w).1.m_data_array = none ∧
    self.destroy w = w ++ [Event.free b.id, Event.decref a] ∧
    (∀ (rt : Runtime) (view : PointView),
      ((self.update rt view w).2.2).take (w.length + 2) =
        w ++ [Event.free b.id, Event.decref a]) := by
  have hc : (self.cleanup w).2 = w ++ [Event.free b.id, Event.decref a] := by
    simp [Array.cleanup, hown, hb, ha, release, Py_XDECREF]
  have hd : (self.cleanup w).1.m_data_array = none := Array.cleanup_data_own self w hown
  refine ⟨hc, hd, ?_, ?_⟩
  · simp [Array.destroy, hd, hc, release]
  · intro rt view
    have hlen : w.length + 2 = (w ++ [Event.free b.id, Event.decref a]).length := by simp
    cases hbd : buildNumpyDescription view with
    | error e =>
      rw [Array.update_thrown_build rt self view w e hbd, hc, hlen, List.take_left]
    | ok d =>
      cases hcv : rt.PyArray_DescrConverter d with
      | false =>
        rw [Array.update_thrown_conv rt self view w d hbd hcv, hc, hlen, List.take_left]
      | true =>
        rw [Array.update_ok rt self view w d hbd hcv, hd, hc]
        simp only [release]
        split
        · rw [hlen, List.take_left]
        · rw [hlen, List.take_left]

theorem cleanup_frees_then_decrefs_witness :
    (Array.cleanup heldHandle [Event.alloc 0, Event.newArray 1 0]).2 =
      [Event.alloc 0, Event.newArray 1 0, Event.free 0, Event.decref 1] :=
  (cleanup_frees_then_decrefs heldHandle [Event.alloc 0, Event.newArray 1 0]
    { id := 0, bytes := [] } 1 rfl rfl rfl).1

/-- C6 on the code: a handle that holds vector 0 and array 1 from an earlier
`update` is updated with a view that has a dimension of unrecognised base type.
The call throws and the handle holds no buffer, but `m_py_array` still names
array 1, whose reference `cleanup` has already dropped: the accessor returns
the released array and the destructor drops the reference a second time. -/
theorem update_failure_keeps_released_array :
    ((Array.default.update rtAccept xyzView []).2.1.update rtAccept badView
        (Array.default.update rtAccept xyzView []).2.2).1 = Outcome.thrown "" ∧
    ((Array.default.update rtAccept xyzView []).2.1.update rtAccept badView
        (Array.default.update rtAccept xyzView []).2.2).2.1.m_data_array = none ∧
    ((Array.default.update rtAccept xyzView []).2.1.update rtAccept badView
        (Array.default.update rtAccept xyzView []).2.2).2.1.getPythonArray = some 1 ∧
    ((Array.default.update rtAccept xyzView []).2.1.update rtAccept badView
        (Array.default.update rtAccept xyzView []).2.2).2.2 =
      [Event.alloc 0, Event.newArray 1 0, Event.free 0, Event.decref 1,
        Event.alloc 4, Event.free 4] ∧
    ((Array.default.update rtAccept xyzView []).2.1.update rtAccept badView
        (Array.default.update rtAccept xyzView []).2.2).2.1.destroy
      ((Array.default.update rtAccept xyzView []).2.1.update rtAccept badView
        (Array.default.update rtAccept xyzView []).2.2).2.2 =
      [Event.alloc 0, Event.newArray 1 0, Event.free 0, Event.decref 1,
        Event.alloc 4, Event.free 4, Event.decref 1] ∧
    (Array.default.update rtAccept badView []).1 = Outcome.thrown "" ∧
    (Array.default.update rtAccept badView []).2.1 = Array.default := by
  decide

/-- C8, as stated, fails: a handle built by borrowing object 7 is updated with
the sample view. The call returns; the reference to object 7 has been dropped,
the handle now holds a buffer of its own (vector 2) and the newly created array 3, and a
second `update` destroys that buffer. -/
theorem borrowed_update_counterexample :
    Array.borrow rtAccept 7 [] = (.ok borrowedHandle, [Event.incref 7]) ∧
    (Array.update rtAccept borrowedHandle
        xyzView [Event.incref 7]).1 = Outcome.returned ∧
    (Array.update rtAccept borrowedHandle
        xyzView [Event.incref 7]).2.1.m_data_array.map Buffer.id = some 2 ∧
    (Array.update rtAccept borrowedHandle
        xyzView [Event.incref 7]).2.1.getPythonArray = some 3 ∧
    (Array.update rtAccept borrowedHandle
        xyzView [Event.incref 7]).2.2 =
      [Event.incref 7, Event.decref 7, Event.alloc 2, Event.newArray 3 2] ∧
    ((Array.update rtAccept borrowedHandle
        xyzView [Event.incref 7]).2.1.update rtAccept xyzView
      (Array.update rtAccept borrowedHandle
        xyzView [Event.incref 7]).2.2).2.2 =
      [Event.incref 7, Event.decref 7, Event.alloc 2, Event.newArray 3 2,
        Event.decref 3, Event.alloc 5, Event.newArray 6 5, Event.free 2] :=
  ⟨rfl, by decide, by decide, by decide, by decide, by decide⟩

/-- C8, amended: `update` is not refused on a handle built by borrowing
construction. When it returns, it has dropped the caller-supplied reference
once, destroyed no buffer, allocated a buffer, packed it as in owning mode and
stored it in the handle together with the array `PyArray_NewFromDescr` created
(exactly when the runtime created none, a null pointer and no array event);
the mode flag stays borrowed. -/
theorem borrowed_update_rebuilds (rt : Runtime) (obj : PyObj) (view : PointView) (w w1 : World)
    (h : Array) (hb : Array.borrow rt obj w = (.ok h, w1))
    (hret : (h.update rt view w1).1 = Outcome.returned) :
    w1 = w ++ [Event.incref obj] ∧
    ((h.update rt view w1).2.2).take (w1.length + 2) =
      w1 ++ [Event.decref obj, Event.alloc (w1.length + 1)] ∧
    freeIds (h.update rt view w1).2.2 = freeIds w ∧
    decrefIds (h.update rt view w1).2.2 = decrefIds w ++ [obj] ∧
    (h.update rt view w1).2.1.m_data_array =
      some { id := w1.length + 1, bytes := packLoop view view.dimTypes (pdataInit view) } ∧
    (∃ d, buildNumpyDescription view = .ok d ∧ rt.PyArray_DescrConverter d = true ∧
      (rt.PyArray_NewFromDescr d view.size = true →
        (h.update rt view w1).2.1.m_py_array = some (w1.length + 2) ∧
        (h.update rt view w1).2.2 = w1 ++ [Event.decref obj, Event.alloc (w1.length + 1),
          Event.newArray (w1.length + 2) (w1.length + 1)]) ∧
      (rt.PyArray_NewFromDescr d view.size = false →
        (h.update rt view w1).2.1.m_py_array = none ∧
        (h.update rt view w1).2.2 = w1 ++ [Event.decref obj, Event.alloc (w1.length + 1)])) ∧
    (h.update rt view w1).2.1.m_own_array = false := by
  unfold Array.borrow at hb
  cases hck : rt.PyArray_Check obj with
  | false => simp [hck] at hb
  | true =>
    simp only [hck, Bool.not_true, Bool.false_eq_true, if_false, Prod.mk.injEq, Except.ok.injEq,
      Py_XINCREF] at hb
    obtain ⟨rfl, rfl⟩ := hb
    obtain ⟨d, hd, hc⟩ := (Array.update_returned_iff rt _ view _).mp hret
    rw [Array.update_ok rt _ view _ d hd hc]
    have hcl : (Array.cleanup { m_py_array := some obj, m_data_array := none, m_own_array := false }
        (w ++ [Event.incref obj])) =
        ({ m_py_array := some obj, m_data_array := none, m_own_array := false },
          w ++ [Event.incref obj] ++ [Event.decref obj]) := by
      simp [Array.cleanup, Py_XDECREF]
    rw [hcl]
    simp only [release, List.length_append, List.length_cons, List.length_nil]
    have htake : ∀ (pre rest : World) (n : Nat), n = pre.length → (pre ++ rest).take n = pre := by
      intro pre rest n hn
      subst hn
      exact List.take_left _ _
    cases hn : rt.PyArray_NewFromDescr d view.size
    · refine ⟨trivial, ?_, ?_, ?_, trivial, ⟨d, hd, hc, by simp [hn], by simp [hn]⟩, trivial⟩
      · simp only [Bool.false_eq_true, if_false]
        have : w ++ [Event.incref obj] ++ [Event.decref obj] ++ [Event.alloc (w.length + 1 + 1)] =
            (w ++ [Event.incref obj] ++ [Event.decref obj, Event.alloc (w.length + 1 + 1)]) ++ [] := by
          simp
        rw [this]
        exact htake _ _ _ (by simp)
      · simp only [Bool.false_eq_true, if_false, freeIds_append]
        simp [freeIds]
      · simp only [Bool.false_eq_true, if_false, decrefIds_append]
        simp [decrefIds]
    · refine ⟨trivial, ?_, ?_, ?_, trivial, ⟨d, hd, hc, by simp [hn], by simp [hn]⟩, trivial⟩
      · simp only [if_true]
        have : w ++ [Event.incref obj] ++ [Event.decref obj] ++
              [Event.alloc (w.length + 1 + 1),
                Event.newArray (w.length + 1 + 1 + 1) (w.length + 1 + 1)] =
            (w ++ [Event.incref obj] ++ [Event.decref obj, Event.alloc (w.length + 1 + 1)]) ++
              [Event.newArray (w.length + 1 + 1 + 1) (w.length + 1 + 1)] := by
          simp
        rw [this]
        exact htake _ _ _ (by simp)
      · simp only [if_true, freeIds_append]
        simp [freeIds]
      · simp only [if_true, decrefIds_append]
        simp [decrefIds]

theorem borrowed_update_rebuilds_witness :
    (Array.update rtAccept borrowedHandle xyzView [Event.incref 7]).2.1.m_data_array =
      some { id := 2, bytes := packLoop xyzView xyzView.dimTypes (pdataInit xyzView) } ∧
    (Array.update rtAccept borrowedHandle xyzView [Event.incref 7]).2.1.m_py_array = some 3 ∧
    (Array.update rtAccept borrowedHandle xyzView [Event.incref 7]).2.2 =
      [Event.incref 7, Event.decref 7, Event.alloc 2, Event.newArray 3 2] ∧
    (Array.update rtAccept borrowedHandle xyzView [Event.incref 7]).2.1.m_own_array = false := by
  have h := borrowed_update_rebuilds rtAccept 7 xyzView [] [Event.incref 7]
    borrowedHandle rfl (by decide)
  obtain ⟨d, -, -, hT, -⟩ := h.2.2.2.2.2.1
  exact ⟨h.2.2.2.2.1, (hT rfl).1, (hT rfl).2, h.2.2.2.2.2.2⟩

/-- C9: the borrowing constructor throws if and only if `PyArray_Check` rejects
the object; when it throws the trace is unchanged (no reference taken, no
vector allocated) and no handle exists; when it succeeds the trace has grown by
exactly one `incref` of the object, the handle is in borrowed mode without a
buffer, and the accessor returns that object. -/
theorem borrow_rejects_non_arrays (rt : Runtime) (obj : PyObj) (w : World) :
    ((∃ e, (Array.borrow rt obj w).1 = .error e) ↔ rt.PyArray_Check obj = false) ∧
    (rt.PyArray_Check obj = false →
      Array.borrow rt obj w =
        (.error "pdal::python::Array constructor object is not a numpy array", w)) ∧
    (rt.PyArray_Check obj = true →
      ∃ h, Array.borrow rt obj w = (.ok h, w ++ [Event.incref obj]) ∧
        h.m_own_array = false ∧ h.m_data_array = none ∧ h.getPythonArray = some obj) := by
  cases hck : rt.PyArray_Check obj <;> simp [Array.borrow, hck, Py_XINCREF, Array.getPythonArray]

end pdal
